import Mathlib

set_option maxHeartbeats 1000000

/-!
Verification of the libcuckoo benchmark testing framework.

Shallow embedding of `configuration.py`, `run_benchmarks.py` and
`gather_results.py`: the configuration matrix generator, the artifact
naming scheme and the result gatherer/matcher, together with theorems
about their behaviour.
-/

/-! Python string primitives used by the scripts. -/

/-- Model of Python percent formatting `fmt % args` for string arguments:
scan the format, substituting each `%s` with the next argument verbatim
(substituted text is not rescanned). -/
def pfAux : List Char → List String → List Char
  | [], _ => []
  | '%' :: 's' :: rest, a :: as => a.data ++ pfAux rest as
  | c :: rest, as => c :: pfAux rest as

/-- String-level wrapper around `pfAux`. -/
def percentFormat (fmt : String) (args : List String) : String :=
  ⟨pfAux fmt.data args⟩

/-- Python whitespace: the characters `str.split()` (no argument) splits on. -/
def pyIsSpace (c : Char) : Bool :=
  c = ' ' || c = '\t' || c = '\n' || c = '\r' || c = '\x0b' || c = '\x0c'

/-- Worker for Python `str.split()`: split on runs of whitespace, discarding
empty tokens; `acc` holds the characters of the current token, reversed. -/
def pySplitAux : List Char → List Char → List String
  | [], acc => if acc.isEmpty then [] else [⟨acc.reverse⟩]
  | c :: cs, acc =>
    if pyIsSpace c then
      if acc.isEmpty then pySplitAux cs []
      else (⟨acc.reverse⟩ : String) :: pySplitAux cs []
    else pySplitAux cs (c :: acc)

/-- Model of Python `str.split()` with no separator argument. -/
def pySplit (s : String) : List String :=
  pySplitAux s.data []

/-- Model of a Python dict lookup `m[k]` on a string-keyed mapping;
`none` models a raised `KeyError`. -/
def pyLookup {β : Type} (m : List (String × β)) (k : String) : Option β :=
  (m.find? fun p => p.1 == k).map (·.2)

/-! Embedding of `configuration.py`. -/

/-- Structure `AllParameters` holds the four configuration axes.  In the
source its constructor loads them from `arguments.json`, `keys.json`,
`values.json` and `tables.json`; here the loaded catalogs are the fields. -/
structure AllParameters where
  args : List (String × String)
  keys : List String
  values : List String
  tables : List String

/-- Structure `BuildConfiguration` holds the parameters that uniquely
identify a build: the key, value and table type. -/
structure BuildConfiguration where
  key : String
  value : String
  table : String
  deriving DecidableEq

/-- Method `get_build_configurations`: yields one `BuildConfiguration` per
element of `itertools.product(self.keys, self.values, self.tables)`, in
product order (table varying fastest). -/
def AllParameters.get_build_configurations (p : AllParameters) :
    List BuildConfiguration :=
  p.keys.flatMap fun key =>
    p.values.flatMap fun value =>
      p.tables.map fun table => BuildConfiguration.mk key value table

/-- Method `cmake_parameters`: the list of CMake defines for a build. -/
def BuildConfiguration.cmake_parameters (c : BuildConfiguration) : List String :=
  [ "-DBUILD_UNIVERSAL_BENCHMARK=1",
    percentFormat "-DUNIVERSAL_KEY=%s" [c.key],
    percentFormat "-DUNIVERSAL_VALUE=%s" [c.value],
    percentFormat "-DUNIVERSAL_TABLE=%s" [c.table] ]

/-- Method `build_dir`: the build directory name for a configuration. -/
def BuildConfiguration.build_dir (c : BuildConfiguration) : String :=
  percentFormat "build___%s___%s___%s" [c.key, c.value, c.table]

/-- Method `result_file`: the result file name for a configuration and an
argument-spec name. -/
def BuildConfiguration.result_file (c : BuildConfiguration)
    (argspec : String) : String :=
  percentFormat "results___%s___%s___%s___%s.json" [c.key, c.value, c.table, argspec]

/-! Embedding of `gather_results.py`. -/

/-- Entry of a result record's `output` mapping: a statistic with a display
name, units and a value.  The value type is a parameter (JSON numbers). -/
structure StatEntry (α : Type) where
  name : String
  units : String
  value : α
  deriving DecidableEq

/-- Shape of a ResultRecord: the JSON document written for one benchmark
run, as consumed by `get_stat`. -/
structure Datum (α : Type) where
  args : String
  key : String
  value : String
  table : String
  output : List (String × StatEntry α)
  deriving DecidableEq

/-- Dictionary returned by `get_stat`. -/
structure StatSeries (α : Type) where
  x_axis : String
  xs : List String
  ys : List α
  y_axis : String
  deriving DecidableEq

/-- Pairing loop of `build_argset`:
`for i in range(0, len(components), 2): argset.add((components[i], components[i + 1]))`.
On an odd-length list the final iteration reads one past the end of the
list, raising `IndexError`; this is modelled as `none`. -/
def pairUp : List String → Option (List (String × String))
  | [] => some []
  | [_] => none
  | a :: b :: rest => (pairUp rest).map fun ps => (a, b) :: ps

/-- Local function `build_argset` of `get_stat`: whitespace-split the
argument line and collect the consecutive `(flag, value)` pairs.  The
source collects them into a Python `set`; here the list of pairs is kept
and set operations are by membership (`pySubset`). -/
def build_argset (argsline : String) : Option (List (String × String)) :=
  pairUp (pySplit argsline)

/-- Model of Python `set.issubset` on the underlying lists of pairs. -/
def pySubset (xs ys : List (String × String)) : Bool :=
  xs.all fun p => decide (p ∈ ys)

/-- Loop body of `get_stat` (`for datum in data:`), threading the result
dict `ret`.  A record whose `args` fail to pair raises `IndexError`; a
matched record whose `output` lacks the statistic raises `KeyError`;
either aborts the whole call. -/
def get_stat_loop {α : Type} (argspec_set : List (String × String))
    (key value outstat : String) :
    List (Datum α) → StatSeries α → Except String (StatSeries α)
  | [], ret => .ok ret
  | datum :: rest, ret =>
    match build_argset datum.args with
    | none => .error "IndexError: list index out of range"
    | some datum_argset =>
      if pySubset argspec_set datum_argset && datum.key == key
          && datum.value == value then
        match pyLookup datum.output outstat with
        | none => .error "KeyError: output statistic not found"
        | some outstat_dict =>
          get_stat_loop argspec_set key value outstat rest
            { ret with
              xs := ret.xs ++ [datum.table],
              ys := ret.ys ++ [outstat_dict.value],
              y_axis := percentFormat "%s (%s)" [outstat_dict.name, outstat_dict.units] }
      else
        get_stat_loop argspec_set key value outstat rest ret

/-- Function `get_stat(all_params, data, argspec, key, value, outstat)`:
for a certain argspec, key and value, find the given statistic for each of
the tables available. -/
def get_stat {α : Type} (all_params : AllParameters) (data : List (Datum α))
    (argspec key value outstat : String) : Except String (StatSeries α) :=
  match pyLookup all_params.args argspec with
  | none => .error "KeyError: argspec not found"
  | some argsline =>
    match build_argset argsline with
    | none => .error "IndexError: list index out of range"
    | some argspec_set =>
      get_stat_loop argspec_set key value outstat data
        { x_axis := "Table Type", xs := [], ys := [], y_axis := "" }

/-- Entry of the results directory: a file name together with the outcome
of parsing its content as a ResultRecord (`none` models `json.load`
raising; the JSON parser itself is the Python standard library, outside
the embedded sources). -/
structure ResultFile (α : Type) where
  name : String
  parsed : Option (Datum α)

/-- Matching of a directory entry against `glob.glob('*.json')`: the name
must end in `.json` and, since the pattern does not start with a dot,
hidden files (leading dot) are excluded. -/
def globJsonMatch (name : String) : Bool :=
  match name.data with
  | '.' :: _ => false
  | l => ".json".data.isSuffixOf l

/-- Parsing pass of `gather_data`: `json.load` each globbed file in order,
appending to `data`; a parse failure aborts the whole gather. -/
def gatherParse {α : Type} : List (ResultFile α) → Except String (List (Datum α))
  | [] => .ok []
  | f :: fs =>
    match f.parsed with
    | none => .error "json.decoder.JSONDecodeError"
    | some d => (gatherParse fs).map fun ds => d :: ds

/-- Function `gather_data()`: glob `*.json` in the results directory and
parse every matching file.  The directory is modelled as the list of its
entries in enumeration order. -/
def gather_data {α : Type} (dir : List (ResultFile α)) :
    Except String (List (Datum α)) :=
  gatherParse (dir.filter fun f => globJsonMatch f.name)

/-! Derived notions used to state the theorems. -/

/-- Record predicate of the matcher, as a function of the query's built
argument set: the record's own argument set builds and contains the query
set, and its key and value equal the query's. -/
def matchesQuery {α : Type} (argspec_set : List (String × String))
    (key value : String) (d : Datum α) : Bool :=
  match build_argset d.args with
  | none => false
  | some ds => pySubset argspec_set ds && d.key == key && d.value == value

/-- Statistic value a matched record contributes to `ys`. -/
def statValue {α : Type} [Inhabited α] (outstat : String) (d : Datum α) : α :=
  match pyLookup d.output outstat with
  | none => default
  | some sd => sd.value

/-- Label `name (units)` a matched record writes into `y_axis`. -/
def statAxisLabel {α : Type} (outstat : String) (d : Datum α) : String :=
  match pyLookup d.output outstat with
  | none => ""
  | some sd => percentFormat "%s (%s)" [sd.name, sd.units]

/-! General helper lemmas. -/

/-- Length of a flatMap whose blocks all have the same length. -/
theorem length_flatMap_const {β γ : Type} (f : β → List γ) (B : Nat)
    (hf : ∀ b, (f b).length = B) (l : List β) :
    (l.flatMap f).length = l.length * B := by
  induction l with
  | nil => simp
  | cons b bs ih =>
    simp only [List.flatMap_cons, List.length_append, hf, ih, List.length_cons]
    ring

/-- Indexing into a flatMap whose blocks all have the same length: division
selects the block, remainder selects the position inside it. -/
theorem getElemQ_flatMap_const {β γ : Type} (f : β → List γ) (B : Nat)
    (hf : ∀ b, (f b).length = B) (l : List β) (i : Nat) :
    (l.flatMap f)[i]? = (l[i / B]?).bind fun b => (f b)[i % B]? := by
  induction l generalizing i with
  | nil => simp
  | cons b bs ih =>
    rw [List.flatMap_cons]
    rcases Nat.eq_zero_or_pos B with hB | hB
    · subst hB
      have hfb : ∀ x, f x = [] := fun x => List.eq_nil_of_length_eq_zero (hf x)
      rw [hfb b, List.nil_append, ih]
      simp only [Nat.div_zero, Nat.mod_zero]
      rw [List.getElem?_cons_zero]
      cases hbs : bs[(0 : Nat)]? with
      | none => simp [hfb]
      | some b2 => simp [hfb]
    · by_cases hiB : i < B
      · rw [List.getElem?_append_left (by rw [hf b]; exact hiB)]
        rw [Nat.div_eq_of_lt hiB, Nat.mod_eq_of_lt hiB, List.getElem?_cons_zero]
        rfl
      · push_neg at hiB
        rw [List.getElem?_append_right (by rw [hf b]; exact hiB), hf b]
        rw [ih]
        rw [Nat.div_eq_sub_div hB hiB, Nat.mod_eq_sub_mod hiB]
        rw [List.getElem?_cons_succ]

/-- Membership in the generated configuration matrix is componentwise
membership in the axes. -/
theorem mem_get_build_configurations (p : AllParameters) (c : BuildConfiguration) :
    c ∈ p.get_build_configurations ↔
      c.key ∈ p.keys ∧ c.value ∈ p.values ∧ c.table ∈ p.tables := by
  cases c with
  | mk k v t =>
    simp [AllParameters.get_build_configurations, List.mem_flatMap, List.mem_map,
      BuildConfiguration.mk.injEq]
    constructor
    · rintro ⟨k0, hk0, v0, hv0, t0, ht0, hk, hv, ht⟩
      subst hk; subst hv; subst ht; exact ⟨hk0, hv0, ht0⟩
    · rintro ⟨hk, hv, ht⟩
      exact ⟨k, hk, v, hv, t, ht, rfl, rfl, rfl⟩

/-- When the axes have no duplicates, neither does the generated matrix. -/
theorem nodup_get_build_configurations (p : AllParameters)
    (hk : p.keys.Nodup) (hv : p.values.Nodup) (ht : p.tables.Nodup) :
    p.get_build_configurations.Nodup := by
  unfold AllParameters.get_build_configurations
  rw [List.nodup_flatMap]
  refine ⟨fun k _ => ?_, ?_⟩
  · rw [List.nodup_flatMap]
    refine ⟨fun v _ => ?_, ?_⟩
    · exact ht.map (fun t1 t2 h => by injection h)
    · refine hv.imp ?_
      intro v1 v2 hne x hx1 hx2
      simp [List.mem_map] at hx1 hx2
      obtain ⟨t1, _, h1⟩ := hx1
      obtain ⟨t2, _, h2⟩ := hx2
      rw [← h1] at h2
      injection h2 with _ h _
      exact hne h.symm
  · refine hk.imp ?_
    intro k1 k2 hne x hx1 hx2
    simp [List.mem_flatMap, List.mem_map] at hx1 hx2
    obtain ⟨v1, _, t1, _, h1⟩ := hx1
    obtain ⟨v2, _, t2, _, h2⟩ := hx2
    rw [← h1] at h2
    injection h2 with h _ _
    exact hne h.symm

/-- Full characterization of the matcher loop when every record's argument
set builds and every matched record carries the queried statistic: it
appends, per matched record in load order, the table to `xs` and the
statistic value to `ys`, and folds the axis label (last match wins). -/
theorem get_stat_loop_spec {α : Type} [Inhabited α]
    (qs : List (String × String)) (key value outstat : String) :
    ∀ (data : List (Datum α)) (ret : StatSeries α),
      (∀ d ∈ data, (build_argset d.args).isSome = true) →
      (∀ d ∈ data, matchesQuery qs key value d = true →
        (pyLookup d.output outstat).isSome = true) →
      get_stat_loop qs key value outstat data ret = .ok
        { x_axis := ret.x_axis,
          xs := ret.xs ++ (data.filter (matchesQuery qs key value)).map (fun d => d.table),
          ys := ret.ys ++ (data.filter (matchesQuery qs key value)).map (statValue outstat),
          y_axis := (data.filter (matchesQuery qs key value)).foldl
            (fun _ d => statAxisLabel outstat d) ret.y_axis } := by
  intro data
  induction data with
  | nil => intro ret _ _; simp [get_stat_loop]
  | cons d rest ih =>
    intro ret hall hstat
    obtain ⟨ds, hds⟩ := Option.isSome_iff_exists.mp (hall d (List.mem_cons_self d rest))
    have hmq : matchesQuery qs key value d
        = (pySubset qs ds && d.key == key && d.value == value) := by
      unfold matchesQuery
      rw [hds]
    rw [get_stat_loop, hds]
    dsimp only
    by_cases hm : (pySubset qs ds && d.key == key && d.value == value) = true
    · rw [if_pos hm]
      obtain ⟨sd, hsd⟩ := Option.isSome_iff_exists.mp
        (hstat d (List.mem_cons_self d rest) (by rw [hmq]; exact hm))
      rw [hsd]
      dsimp only
      rw [ih _ (fun x hx => hall x (List.mem_cons_of_mem d hx))
            (fun x hx hmx => hstat x (List.mem_cons_of_mem d hx) hmx)]
      simp only [List.filter_cons, hmq, hm, if_true, List.map_cons, List.foldl_cons]
      congr 1
      simp [statValue, statAxisLabel, hsd, List.append_assoc]
    · rw [if_neg hm]
      rw [ih _ (fun x hx => hall x (List.mem_cons_of_mem d hx))
            (fun x hx hmx => hstat x (List.mem_cons_of_mem d hx) hmx)]
      have hmf : matchesQuery qs key value d = false := by
        rw [hmq]; exact Bool.not_eq_true _ ▸ (by simpa using hm)
      simp only [List.filter_cons, hmf, if_false, Bool.false_eq_true]

/-- Characterization of a whole `get_stat` call under the same hypotheses
as `get_stat_loop_spec`. -/
theorem get_stat_spec {α : Type} [Inhabited α] (ap : AllParameters)
    (data : List (Datum α)) (argspec key value outstat argsline : String)
    (qs : List (String × String))
    (hline : pyLookup ap.args argspec = some argsline)
    (hqs : build_argset argsline = some qs)
    (hall : ∀ d ∈ data, (build_argset d.args).isSome = true)
    (hstat : ∀ d ∈ data, matchesQuery qs key value d = true →
      (pyLookup d.output outstat).isSome = true) :
    get_stat ap data argspec key value outstat = .ok
      { x_axis := "Table Type",
        xs := (data.filter (matchesQuery qs key value)).map (fun d => d.table),
        ys := (data.filter (matchesQuery qs key value)).map (statValue outstat),
        y_axis := (data.filter (matchesQuery qs key value)).foldl
          (fun _ d => statAxisLabel outstat d) "" } := by
  unfold get_stat
  rw [hline]
  dsimp only
  rw [hqs]
  dsimp only
  rw [get_stat_loop_spec qs key value outstat data _ hall hstat]
  simp

/-- When every record's argument set builds but some matched record lacks
the queried statistic, the loop aborts with the lookup error. -/
theorem get_stat_loop_missing {α : Type} (qs : List (String × String))
    (key value outstat : String) :
    ∀ (data : List (Datum α)) (ret : StatSeries α),
      (∀ d ∈ data, (build_argset d.args).isSome = true) →
      (∃ d ∈ data, matchesQuery qs key value d = true ∧
        pyLookup d.output outstat = none) →
      get_stat_loop qs key value outstat data ret
        = .error "KeyError: output statistic not found" := by
  intro data
  induction data with
  | nil => intro ret _ hbad; simp at hbad
  | cons d rest ih =>
    intro ret hall hbad
    obtain ⟨ds, hds⟩ := Option.isSome_iff_exists.mp (hall d (List.mem_cons_self d rest))
    have hmq : matchesQuery qs key value d
        = (pySubset qs ds && d.key == key && d.value == value) := by
      unfold matchesQuery
      rw [hds]
    rw [get_stat_loop, hds]
    dsimp only
    by_cases hm : (pySubset qs ds && d.key == key && d.value == value) = true
    · rw [if_pos hm]
      cases hsd : pyLookup d.output outstat with
      | none => rfl
      | some sd =>
        dsimp only
        obtain ⟨d0, hd0m, hd0match, hd0none⟩ := hbad
        rcases List.mem_cons.mp hd0m with hEq | hmem
        · subst hEq
          rw [hsd] at hd0none
          exact absurd hd0none (by simp)
        · exact ih _ (fun x hx => hall x (List.mem_cons_of_mem d hx))
            ⟨d0, hmem, hd0match, hd0none⟩
    · rw [if_neg hm]
      obtain ⟨d0, hd0m, hd0match, hd0none⟩ := hbad
      rcases List.mem_cons.mp hd0m with hEq | hmem
      · subst hEq
        rw [hmq] at hd0match
        exact absurd hd0match hm
      · exact ih _ (fun x hx => hall x (List.mem_cons_of_mem d hx))
          ⟨d0, hmem, hd0match, hd0none⟩

/-- Character-level shape of a result filename. -/
theorem result_file_data (c : BuildConfiguration) (a : String) :
    (c.result_file a).data
      = 'r' :: 'e' :: 's' :: 'u' :: 'l' :: 't' :: 's' :: '_' :: '_' :: '_' ::
        (c.key.data ++ '_' :: '_' :: '_' ::
          (c.value.data ++ '_' :: '_' :: '_' ::
            (c.table.data ++ '_' :: '_' :: '_' ::
              (a.data ++ ('.' :: 'j' :: 's' :: 'o' :: 'n' :: []))))) := by
  simp [BuildConfiguration.result_file, percentFormat, pfAux]

/-- Splitting at the first underscore is unambiguous when the parts before
it are underscore-free. -/
theorem us_split : ∀ (l1 l2 r1 r2 : List Char), '_' ∉ l1 → '_' ∉ l2 →
    l1 ++ '_' :: r1 = l2 ++ '_' :: r2 → l1 = l2 ∧ r1 = r2 := by
  intro l1
  induction l1 with
  | nil =>
    intro l2 r1 r2 _ h2 he
    cases l2 with
    | nil => simpa using he
    | cons c cs =>
      simp only [List.nil_append, List.cons_append, List.cons.injEq] at he
      exact absurd (List.mem_cons.mpr (Or.inl he.1)) h2
  | cons c cs ih =>
    intro l2 r1 r2 h1 h2 he
    cases l2 with
    | nil =>
      simp only [List.nil_append, List.cons_append, List.cons.injEq] at he
      exact absurd (List.mem_cons.mpr (Or.inl he.1.symm)) h1
    | cons d ds =>
      simp only [List.cons_append, List.cons.injEq] at he
      obtain ⟨hcd, he2⟩ := he
      obtain ⟨hl, hr⟩ := ih ds r1 r2
        (fun hm => h1 (List.mem_cons_of_mem _ hm))
        (fun hm => h2 (List.mem_cons_of_mem _ hm)) he2
      exact ⟨by rw [hcd, hl], hr⟩

/-- Success of the pairing loop is exactly evenness of the token count. -/
theorem pairUp_isSome_iff : ∀ l : List String,
    (pairUp l).isSome = true ↔ l.length % 2 = 0
  | [] => by simp [pairUp]
  | [a] => by simp [pairUp]
  | a :: b :: rest => by
    have ih := pairUp_isSome_iff rest
    simp only [pairUp, List.length_cons]
    cases hp : pairUp rest <;> simp [hp] at ih ⊢ <;> omega

/-- If every globbed file parses, the parsing pass returns all the parsed
records in order. -/
theorem gatherParse_ok {α : Type} : ∀ fs : List (ResultFile α),
    (∀ f ∈ fs, f.parsed.isSome = true) →
    gatherParse fs = .ok (fs.filterMap fun f => f.parsed) := by
  intro fs
  induction fs with
  | nil => intro _; rfl
  | cons f rest ih =>
    intro h
    obtain ⟨d, hd⟩ := Option.isSome_iff_exists.mp (h f (List.mem_cons_self f rest))
    rw [gatherParse, hd]
    dsimp only
    rw [ih (fun x hx => h x (List.mem_cons_of_mem f hx))]
    simp [List.filterMap_cons, hd, Except.map]

/-- If some globbed file fails to parse, the parsing pass fails. -/
theorem gatherParse_error {α : Type} : ∀ fs : List (ResultFile α),
    (∃ f ∈ fs, f.parsed = none) → ∃ e, gatherParse fs = .error e := by
  intro fs
  induction fs with
  | nil => rintro ⟨f, hf, _⟩; simp at hf
  | cons f rest ih =>
    rintro ⟨f0, hf0, hp0⟩
    rw [gatherParse]
    cases hfp : f.parsed with
    | none => exact ⟨_, rfl⟩
    | some d =>
      dsimp only
      rcases List.mem_cons.mp hf0 with hEq | hmem
      · subst hEq
        rw [hfp] at hp0
        exact absurd hp0 (by simp)
      · obtain ⟨e, he⟩ := ih ⟨f0, hmem, hp0⟩
        exact ⟨e, by rw [he]; rfl⟩

/-- Propositional reading of the matcher predicate on a record whose
argument set builds. -/
theorem matchesQuery_iff {α : Type} (d : Datum α) (qs ds : List (String × String))
    (key value : String) (hds : build_argset d.args = some ds) :
    matchesQuery qs key value d = true
      ↔ (d.key = key ∧ d.value = value ∧ ∀ p ∈ qs, p ∈ ds) := by
  unfold matchesQuery
  rw [hds]
  simp [pySubset, List.all_eq_true]
  tauto

/-- Against an empty query flag-set the matcher predicate degenerates to
equality of key and value. -/
theorem matchesQuery_nil {α : Type} (key value : String) (d : Datum α)
    (h : (build_argset d.args).isSome = true) :
    matchesQuery [] key value d = (d.key == key && d.value == value) := by
  obtain ⟨ds, hds⟩ := Option.isSome_iff_exists.mp h
  unfold matchesQuery
  rw [hds]
  simp [pySubset]

/-! Claim theorems. -/

/-- C1: In `get_stat`, a loaded record (with successfully built argument
set) matches the query iff its key field equals the query key, its value
field equals the query value, and the query's flag-value-pair set (built
by whitespace-splitting the catalog string for the query argSpec and
pairing consecutive tokens) is a subset of the set built the same way from
the record's args string; concretely, a record with args `--a 1 --b 2`
matches a query spec `--a 1`, does not match `--a 1 --c 3`, and does not
match `--a 9`. -/
theorem matchStat_subset_criterion :
    (∀ (d : Datum Int) (qs ds : List (String × String)) (key value : String),
      build_argset d.args = some ds →
      (matchesQuery qs key value d = true
        ↔ (d.key = key ∧ d.value = value ∧ ∀ p ∈ qs, p ∈ ds)))
    ∧ get_stat (AllParameters.mk [("q1", "--a 1"), ("q2", "--a 1 --c 3"), ("q3", "--a 9")] [] [] [])
        [Datum.mk "--a 1 --b 2" "k" "v" "T" [("time", StatEntry.mk "Time" "ns" (5 : Int))]]
        "q1" "k" "v" "time"
        = .ok (StatSeries.mk "Table Type" ["T"] [5] "Time (ns)")
    ∧ get_stat (AllParameters.mk [("q1", "--a 1"), ("q2", "--a 1 --c 3"), ("q3", "--a 9")] [] [] [])
        [Datum.mk "--a 1 --b 2" "k" "v" "T" [("time", StatEntry.mk "Time" "ns" (5 : Int))]]
        "q2" "k" "v" "time"
        = .ok (StatSeries.mk "Table Type" [] [] "")
    ∧ get_stat (AllParameters.mk [("q1", "--a 1"), ("q2", "--a 1 --c 3"), ("q3", "--a 9")] [] [] [])
        [Datum.mk "--a 1 --b 2" "k" "v" "T" [("time", StatEntry.mk "Time" "ns" (5 : Int))]]
        "q3" "k" "v" "time"
        = .ok (StatSeries.mk "Table Type" [] [] "") :=
  ⟨fun d qs ds key value hds => matchesQuery_iff d qs ds key value hds,
   by rfl, by rfl, by rfl⟩

/-- Witness for C1 at a concrete record and query flag-set. -/
theorem matchStat_subset_criterion_witness :
    build_argset "--a 1 --b 2" = some [("--a", "1"), ("--b", "2")]
    ∧ (matchesQuery [("--a", "1")] "k" "v"
        (Datum.mk "--a 1 --b 2" "k" "v" "T" ([] : List (String × StatEntry Int))) = true
      ↔ (("k" : String) = "k" ∧ ("v" : String) = "v"
          ∧ ∀ p ∈ [("--a", "1")], p ∈ [("--a", "1"), ("--b", "2")])) :=
  ⟨by rfl,
   matchStat_subset_criterion.1
     (Datum.mk "--a 1 --b 2" "k" "v" "T" ([] : List (String × StatEntry Int)))
     [("--a", "1")] [("--a", "1"), ("--b", "2")] "k" "v" (by rfl)⟩

/-- C2: For pairwise-distinct axis lists, `get_build_configurations` yields
exactly `|K| * |V| * |T|` configurations, every triple appears exactly
once, and the sequence is in stored axis order with the table axis varying
fastest (position `i` holds key `i / (|V| * |T|)`, value `i / |T| mod |V|`,
table `i mod |T|`). -/
theorem matrix_generator_product (p : AllParameters)
    (hk : p.keys.Nodup) (hv : p.values.Nodup) (ht : p.tables.Nodup) :
    p.get_build_configurations.length
        = p.keys.length * p.values.length * p.tables.length
    ∧ (∀ k ∈ p.keys, ∀ v ∈ p.values, ∀ t ∈ p.tables,
        p.get_build_configurations.count (BuildConfiguration.mk k v t) = 1)
    ∧ (∀ i : Nat,
        p.get_build_configurations[i]?
          = (p.keys[i / (p.values.length * p.tables.length)]?).bind fun key =>
            (p.values[i / p.tables.length % p.values.length]?).bind fun value =>
              (p.tables[i % p.tables.length]?).map fun table =>
                BuildConfiguration.mk key value table) := by
  have hflen : ∀ k : String,
      (p.values.flatMap fun v => p.tables.map fun t => BuildConfiguration.mk k v t).length
        = p.values.length * p.tables.length := by
    intro k
    exact length_flatMap_const _ _ (fun v => p.tables.length_map _) _
  refine ⟨?_, ?_, ?_⟩
  · unfold AllParameters.get_build_configurations
    rw [length_flatMap_const _ _ hflen, Nat.mul_assoc]
  · intro k hkm v hvm t htm
    exact List.count_eq_one_of_mem
      (nodup_get_build_configurations p hk hv ht)
      ((mem_get_build_configurations p _).mpr ⟨hkm, hvm, htm⟩)
  · intro i
    unfold AllParameters.get_build_configurations
    rw [getElemQ_flatMap_const _ _ hflen]
    cases p.keys[i / (p.values.length * p.tables.length)]? with
    | none => rfl
    | some k =>
      simp only [Option.some_bind]
      rw [getElemQ_flatMap_const _ _ (fun v => p.tables.length_map _)]
      have h1 : i % (p.values.length * p.tables.length) % p.tables.length
          = i % p.tables.length :=
        Nat.mod_mod_of_dvd i ⟨p.values.length, Nat.mul_comm _ _⟩
      have h2 : i % (p.values.length * p.tables.length) / p.tables.length
          = i / p.tables.length % p.values.length := by
        rw [Nat.mul_comm p.values.length p.tables.length, Nat.mod_mul_right_div_self]
      rw [h1, h2]
      cases p.values[i / p.tables.length % p.values.length]? with
      | none => rfl
      | some v =>
        simp only [Option.some_bind]
        rw [List.getElem?_map]

/-- Witness for C2 on the catalog of the spec's scenario. -/
theorem matrix_generator_product_witness :
    (["int"] : List String).Nodup
    ∧ (AllParameters.mk [] ["int"] ["int"] ["flat", "btree"]).get_build_configurations.length
        = (["int"] : List String).length * (["int"] : List String).length
          * (["flat", "btree"] : List String).length :=
  ⟨by decide,
   (matrix_generator_product (AllParameters.mk [] ["int"] ["int"] ["flat", "btree"])
     (by decide) (by decide) (by decide)).1⟩

/-- C3: When every record's argument set builds and every matched record
carries the queried statistic, `get_stat` succeeds with `xs` the tables
and `ys` the statistic values of the matched records, both mapped off the
same filtered list in load order (so they have equal length and aligned
indices come from the same record), and `y_axis` folded through the
matches' `name (units)` labels from the initial empty string, so the last
match wins. -/
theorem matchStat_series_aligned {α : Type} [Inhabited α] (ap : AllParameters)
    (data : List (Datum α)) (argspec key value outstat argsline : String)
    (qs : List (String × String))
    (hline : pyLookup ap.args argspec = some argsline)
    (hqs : build_argset argsline = some qs)
    (hall : ∀ d ∈ data, (build_argset d.args).isSome = true)
    (hstat : ∀ d ∈ data, matchesQuery qs key value d = true →
      (pyLookup d.output outstat).isSome = true) :
    get_stat ap data argspec key value outstat = .ok
      { x_axis := "Table Type",
        xs := (data.filter (matchesQuery qs key value)).map (fun d => d.table),
        ys := (data.filter (matchesQuery qs key value)).map (statValue outstat),
        y_axis := (data.filter (matchesQuery qs key value)).foldl
          (fun _ d => statAxisLabel outstat d) "" }
    ∧ ((data.filter (matchesQuery qs key value)).map (fun d => d.table)).length
        = ((data.filter (matchesQuery qs key value)).map (statValue outstat)).length :=
  ⟨get_stat_spec ap data argspec key value outstat argsline qs hline hqs hall hstat,
   by simp⟩

/-- Witness for C3 on the spec's two-record scenario: tables `flat` and
`btree` with identical key and value, queried through argSpec `basic`. -/
theorem matchStat_series_aligned_witness :
    get_stat (AllParameters.mk [("basic", "--reps 10")] [] [] [])
      [Datum.mk "--reps 10 --warm 1" "int" "int" "flat"
        [("time", StatEntry.mk "Time" "ns" (5 : Int))],
       Datum.mk "--reps 10 --warm 1" "int" "int" "btree"
        [("time", StatEntry.mk "Time" "ns" (5 : Int))]]
      "basic" "int" "int" "time"
      = .ok (StatSeries.mk "Table Type" ["flat", "btree"] [5, 5] "Time (ns)") :=
  ((matchStat_series_aligned (AllParameters.mk [("basic", "--reps 10")] [] [] [])
      [Datum.mk "--reps 10 --warm 1" "int" "int" "flat"
        [("time", StatEntry.mk "Time" "ns" (5 : Int))],
       Datum.mk "--reps 10 --warm 1" "int" "int" "btree"
        [("time", StatEntry.mk "Time" "ns" (5 : Int))]]
      "basic" "int" "int" "time" "--reps 10" [("--reps", "10")]
      (by rfl) (by rfl) (by decide) (by decide)).1).trans (by rfl)

/-- C4 counterexample: two distinct triples whose components contain
underscores produce the same result filename, so distinctness of result
filenames fails as universally stated. -/
theorem result_file_collision :
    (BuildConfiguration.mk "a_" "b" "t").result_file "s"
        = (BuildConfiguration.mk "a" "_b" "t").result_file "s"
    ∧ BuildConfiguration.mk "a_" "b" "t" ≠ BuildConfiguration.mk "a" "_b" "t" :=
  ⟨by rfl, by decide⟩

/-- C4 (amended): `build_dir` and `result_file` are pure functions of the
triple, and when the key, value and table contain no underscore character,
two result filenames coincide exactly when the triples and argSpec names
do. -/
theorem result_file_pure_injective (c1 c2 : BuildConfiguration) (a1 a2 : String)
    (h1k : '_' ∉ c1.key.data) (h1v : '_' ∉ c1.value.data) (h1t : '_' ∉ c1.table.data)
    (h2k : '_' ∉ c2.key.data) (h2v : '_' ∉ c2.value.data) (h2t : '_' ∉ c2.table.data) :
    (c1 = c2 → c1.build_dir = c2.build_dir ∧ ∀ a, c1.result_file a = c2.result_file a)
    ∧ (c1.result_file a1 = c2.result_file a2 ↔ c1 = c2 ∧ a1 = a2) := by
  constructor
  · rintro rfl
    exact ⟨rfl, fun _ => rfl⟩
  constructor
  · intro h
    have hd := congrArg String.data h
    rw [result_file_data, result_file_data] at hd
    simp only [List.cons.injEq, true_and] at hd
    obtain ⟨hk, hrest⟩ := us_split _ _ _ _ h1k h2k hd
    simp only [List.cons.injEq, true_and] at hrest
    obtain ⟨hv, hrest2⟩ := us_split _ _ _ _ h1v h2v hrest
    simp only [List.cons.injEq, true_and] at hrest2
    obtain ⟨ht, hrest3⟩ := us_split _ _ _ _ h1t h2t hrest2
    simp only [List.cons.injEq, true_and] at hrest3
    have ha := List.append_cancel_right hrest3
    cases c1 with
    | mk k1 v1 t1 =>
      cases c2 with
      | mk k2 v2 t2 =>
        refine ⟨?_, String.ext ha⟩
        simp only [BuildConfiguration.mk.injEq]
        exact ⟨String.ext hk, String.ext hv, String.ext ht⟩
  · rintro ⟨rfl, rfl⟩
    rfl

/-- Witness for C4 at underscore-free components. -/
theorem result_file_pure_injective_witness :
    ('_' ∉ ("k1" : String).data)
    ∧ ((BuildConfiguration.mk "k1" "v" "t").result_file "a"
          = (BuildConfiguration.mk "k2" "v" "t").result_file "a"
        ↔ BuildConfiguration.mk "k1" "v" "t" = BuildConfiguration.mk "k2" "v" "t"
          ∧ ("a" : String) = "a") :=
  ⟨by decide,
   (result_file_pure_injective (BuildConfiguration.mk "k1" "v" "t")
     (BuildConfiguration.mk "k2" "v" "t") "a" "a"
     (by decide) (by decide) (by decide) (by decide) (by decide) (by decide)).2⟩

/-- C5: For every triple and argSpec name, `result_file` is exactly the
triple-underscore-delimited string `results___key___value___table___argspec.json`
and `build_dir` is exactly `build___key___value___table`. -/
theorem artifact_naming_exact (c : BuildConfiguration) (argspec : String) :
    c.result_file argspec
        = "results___" ++ c.key ++ "___" ++ c.value ++ "___" ++ c.table
          ++ "___" ++ argspec ++ ".json"
    ∧ c.build_dir = "build___" ++ c.key ++ "___" ++ c.value ++ "___" ++ c.table := by
  constructor <;>
    (apply String.ext
     simp [BuildConfiguration.result_file, BuildConfiguration.build_dir,
       percentFormat, pfAux, String.data_append])

/-- C6 counterexample: a file whose name does not match the `*.json` glob
is never read, so its failure to parse is not fatal — the gather succeeds,
contradicting the claim that every file in the directory is read and any
parse failure aborts the gather. -/
theorem gather_data_skips_non_json :
    gather_data [ResultFile.mk "notes.txt" (none : Option (Datum Int))] = .ok [] := by
  rfl

/-- C6 (amended): `gather_data` reads exactly the directory entries
matching the `*.json` glob, parses each as a ResultRecord in enumeration
order, and a matching file that fails to parse is fatal to the whole
gather (no partial result); non-matching entries are ignored. -/
theorem gather_data_json_spec {α : Type} (dir : List (ResultFile α)) :
    ((∀ f ∈ dir, globJsonMatch f.name = true → f.parsed.isSome = true) →
      gather_data dir
        = .ok ((dir.filter fun f => globJsonMatch f.name).filterMap fun f => f.parsed))
    ∧ ((∃ f ∈ dir, globJsonMatch f.name = true ∧ f.parsed = none) →
      ∃ e, gather_data dir = .error e) := by
  constructor
  · intro h
    unfold gather_data
    apply gatherParse_ok
    intro f hf
    have hm := List.mem_filter.mp hf
    exact h f hm.1 hm.2
  · rintro ⟨f, hf, hg, hp⟩
    unfold gather_data
    exact gatherParse_error _ ⟨f, List.mem_filter.mpr ⟨hf, hg⟩, hp⟩

/-- Witness for C6: one parsable `.json` file next to an unparsable
non-json file. -/
theorem gather_data_json_spec_witness :
    gather_data [ResultFile.mk "a.json"
        (some (Datum.mk "" "k" "v" "T" ([] : List (String × StatEntry Int)))),
      ResultFile.mk "notes.txt" none]
      = .ok (([ResultFile.mk "a.json"
          (some (Datum.mk "" "k" "v" "T" ([] : List (String × StatEntry Int)))),
        ResultFile.mk "notes.txt" none].filter fun f =>
          globJsonMatch f.name).filterMap fun f => f.parsed) :=
  (gather_data_json_spec _).1 (by decide)

/-- C7: When the query argSpec resolves and every record's argument set
builds, a record that satisfies the match predicate but whose `output`
lacks the queried statistic makes `get_stat` fail with the lookup error —
the record is never silently omitted from the series. -/
theorem matchStat_missing_stat_error {α : Type} (ap : AllParameters)
    (data : List (Datum α)) (argspec key value outstat argsline : String)
    (qs : List (String × String))
    (hline : pyLookup ap.args argspec = some argsline)
    (hqs : build_argset argsline = some qs)
    (hall : ∀ d ∈ data, (build_argset d.args).isSome = true)
    (hbad : ∃ d ∈ data, matchesQuery qs key value d = true ∧
      pyLookup d.output outstat = none) :
    get_stat ap data argspec key value outstat
      = .error "KeyError: output statistic not found" := by
  unfold get_stat
  rw [hline]
  dsimp only
  rw [hqs]
  dsimp only
  exact get_stat_loop_missing qs key value outstat data _ hall hbad

/-- Witness for C7: a matched record with an empty `output` mapping. -/
theorem matchStat_missing_stat_error_witness :
    get_stat (AllParameters.mk [("q", "--a 1")] [] [] [])
      [Datum.mk "--a 1" "k" "v" "T" ([] : List (String × StatEntry Int))]
      "q" "k" "v" "time" = .error "KeyError: output statistic not found" :=
  matchStat_missing_stat_error (AllParameters.mk [("q", "--a 1")] [] [] [])
    [Datum.mk "--a 1" "k" "v" "T" ([] : List (String × StatEntry Int))]
    "q" "k" "v" "time" "--a 1" [("--a", "1")] (by rfl) (by rfl) (by decide)
    (by decide)

/-- C8 counterexample: on the odd-token string `--a 1 --b`, `build_argset`
fails (the out-of-range read raises IndexError) instead of returning an
off-by-one paired flag-set. -/
theorem build_argset_odd_fails : build_argset "--a 1 --b" = none := by
  rfl

/-- C8 (amended): `build_argset` succeeds exactly on argument strings with
an even number of whitespace tokens; an unpaired trailing flag makes the
final loop iteration read past the end of the token list, raising
IndexError, rather than returning a misaligned flag-set. -/
theorem build_argset_some_iff_even (s : String) :
    (build_argset s).isSome = true ↔ (pySplit s).length % 2 = 0 := by
  unfold build_argset
  exact pairUp_isSome_iff (pySplit s)

/-- C9 counterexample: with catalog string `""` for the query argSpec, a
record whose key and value equal the query's but whose args string has an
odd token count does not match — `get_stat` aborts with IndexError — so
the record's args string is not irrelevant. -/
theorem matchStat_empty_spec_odd_args_error :
    get_stat (AllParameters.mk [("q", "")] [] [] [])
      [Datum.mk "--flag" "k" "v" "T" [("s", StatEntry.mk "S" "u" (1 : Int))]]
      "q" "k" "v" "s" = .error "IndexError: list index out of range" := by
  rfl

/-- C9 (amended): if the catalog string for the query argSpec is empty or
all whitespace, its flag-set is empty, so in `get_stat` every record whose
key and value equal the query's — and whose own args string pairs into a
flag-set, i.e. has an even token count — matches, regardless of which
flags those are. -/
theorem matchStat_empty_spec_matches_key_value {α : Type} [Inhabited α]
    (ap : AllParameters) (data : List (Datum α))
    (argspec key value outstat argsline : String)
    (hline : pyLookup ap.args argspec = some argsline)
    (hempty : pySplit argsline = [])
    (hall : ∀ d ∈ data, (build_argset d.args).isSome = true)
    (hstat : ∀ d ∈ data, (d.key == key && d.value == value) = true →
      (pyLookup d.output outstat).isSome = true) :
    get_stat ap data argspec key value outstat = .ok
      { x_axis := "Table Type",
        xs := (data.filter fun d => d.key == key && d.value == value).map (fun d => d.table),
        ys := (data.filter fun d => d.key == key && d.value == value).map (statValue outstat),
        y_axis := (data.filter fun d => d.key == key && d.value == value).foldl
          (fun _ d => statAxisLabel outstat d) "" } := by
  have hqs : build_argset argsline = some [] := by
    unfold build_argset
    rw [hempty]
    rfl
  have hcong : ∀ d ∈ data, matchesQuery ([] : List (String × String)) key value d
      = (d.key == key && d.value == value) :=
    fun d hd => matchesQuery_nil key value d (hall d hd)
  have hfilter : data.filter (matchesQuery ([] : List (String × String)) key value)
      = data.filter fun d => d.key == key && d.value == value :=
    List.filter_congr hcong
  have h := get_stat_spec ap data argspec key value outstat argsline [] hline hqs hall
    (fun d hd hm => hstat d hd (by rw [← hcong d hd]; exact hm))
  rw [h, hfilter]

/-- Witness for C9: an all-whitespace catalog string matches a record with
extra flags. -/
theorem matchStat_empty_spec_matches_key_value_witness :
    get_stat (AllParameters.mk [("q", " ")] [] [] [])
      [Datum.mk "--a 1" "k" "v" "T" [("s", StatEntry.mk "S" "u" (2 : Int))]]
      "q" "k" "v" "s"
      = .ok (StatSeries.mk "Table Type" ["T"] [2] "S (u)") :=
  (matchStat_empty_spec_matches_key_value (AllParameters.mk [("q", " ")] [] [] [])
    [Datum.mk "--a 1" "k" "v" "T" [("s", StatEntry.mk "S" "u" (2 : Int))]]
    "q" "k" "v" "s" " " (by rfl) (by rfl) (by decide) (by decide)).trans (by rfl)

/-- C10 counterexample: a query whose own catalog string has an odd token
count aborts with IndexError even when no record exists at all, so the
initial dictionary is not returned for every no-match query. -/
theorem matchStat_odd_query_spec_error :
    get_stat (AllParameters.mk [("q", "--x")] [] [] []) ([] : List (Datum Int))
      "q" "k" "v" "s" = .error "IndexError: list index out of range" := by
  rfl

/-- C10 (amended): when the query argSpec resolves, its flag-set builds,
every record's flag-set builds, and no record matches, `get_stat` returns
exactly the initial dictionary: x_axis `Table Type`, empty `xs` and `ys`,
and empty-string `y_axis`. -/
theorem matchStat_no_match_initial_series {α : Type} [Inhabited α]
    (ap : AllParameters) (data : List (Datum α))
    (argspec key value outstat argsline : String) (qs : List (String × String))
    (hline : pyLookup ap.args argspec = some argsline)
    (hqs : build_argset argsline = some qs)
    (hall : ∀ d ∈ data, (build_argset d.args).isSome = true)
    (hnone : ∀ d ∈ data, matchesQuery qs key value d = false) :
    get_stat ap data argspec key value outstat
      = .ok (StatSeries.mk "Table Type" [] [] "") := by
  have hfilter : data.filter (matchesQuery qs key value) = [] :=
    List.filter_eq_nil_iff.mpr (fun d hd => by simp [hnone d hd])
  have h := get_stat_spec ap data argspec key value outstat argsline qs hline hqs hall
    (fun d hd hm => absurd hm (by simp [hnone d hd]))
  rw [h, hfilter]
  rfl

/-- Witness for C10: one record that fails the subset test. -/
theorem matchStat_no_match_initial_series_witness :
    get_stat (AllParameters.mk [("q", "--a 1")] [] [] [])
      [Datum.mk "--b 2" "k" "v" "T" ([] : List (String × StatEntry Int))]
      "q" "k" "v" "s" = .ok (StatSeries.mk "Table Type" [] [] "") :=
  matchStat_no_match_initial_series (AllParameters.mk [("q", "--a 1")] [] [] [])
    [Datum.mk "--b 2" "k" "v" "T" ([] : List (String × StatEntry Int))]
    "q" "k" "v" "s" "--a 1" [("--a", "1")] (by rfl) (by rfl) (by decide) (by decide)
